import Mathlib

/-!
Verification development for the quotation-management backend
(`backend/app.py`, `backend/database.py`, `backend/auth.py`,
`backend/ai_assistant.py`, `backend/create_tables.py` and the migration
scripts).

The Python source is shallowly embedded: SQLite tables become Lean lists of
records, each HTTP handler or helper becomes an executable Lean function that
passes the database state explicitly, and fallible SQL statements (unique
constraint violations) return `Except`.  Timestamps are modelled as natural
numbers supplied through an explicit environment.  The regex-cascade contact
extraction of `sync_emails` is a pure function of the email body; its outputs
(phone, company, name match, email match) are taken as inputs of the embedded
handler, and everything the handler computes from them follows the source
line by line, including Python truthiness tests and SQLite's three-valued
`NULL` comparison semantics.
-/

deriving instance DecidableEq for Except

namespace QMS

/-- Python truthiness of an optional string: `None` and `''` are falsy. -/
def truthyOpt : Option String → Bool
  | none => false
  | some s => s ≠ ""

/-- `s.split('@')[0]` — the sender-address local part used as name
fallback: the characters before the first `'@'`. -/
def localPart (s : String) : String :=
  ⟨s.data.takeWhile (· ≠ '@')⟩

/-- Python's `'@' in s`. -/
def charIn (c : Char) (s : String) : Bool :=
  s.data.contains c

/-- Python's `str.strip()` whitespace set. -/
def isPySpace (c : Char) : Bool :=
  c = ' ' || c = '\t' || c = '\n' || c = '\r' || c = '\x0b' || c = '\x0c'

/-- Python's `s.strip()`. -/
def pyStrip (s : String) : String :=
  ⟨((s.data.dropWhile isPySpace).reverse.dropWhile isPySpace).reverse⟩

/-- Slugification used for synthetic client emails:
`full_name.lower().replace(' ', '.').replace('*', '')` — both replaced
patterns are single characters, so this is a per-character map (space to
period) followed by dropping asterisks. -/
def slugify (s : String) : String :=
  ⟨((s.data.map Char.toLower).map
      (fun c => if c = ' ' then '.' else c)).filter (· ≠ '*')⟩

/-- SQL equality of a nullable column against a non-null parameter:
`NULL = x` is never true in SQLite. -/
def sqlEqOpt (stored : Option String) (param : String) : Bool :=
  match stored with
  | none => false
  | some v => v = param

/-- Character-list prefix test (helper for the `LIKE '%t%'` embedding). -/
def charPrefix : List Char → List Char → Bool
  | _, [] => true
  | [], _ :: _ => false
  | a :: as, b :: bs => a = b && charPrefix as bs

/-- Character-list substring test (helper for the `LIKE '%t%'` embedding). -/
def charSubstr : List Char → List Char → Bool
  | [], needle => needle.isEmpty
  | hay@(_ :: t), needle => charPrefix hay needle || charSubstr t needle

/-- SQLite `col LIKE '%term%'` (ASCII case-insensitive substring match). -/
def sqlLike (col term : String) : Bool :=
  charSubstr (col.data.map Char.toLower) (term.data.map Char.toLower)

/- ------------------------------------------------------------------ -/
/- Data model: the five tables touched by the claims (schema from
`create_tables.py`, the migration scripts and `database/init.sql`'s
documented shape: clients carry a nullable `company` column and a UNIQUE
`email` column; responses carry `client_replied` default 0,
`follow_up_method` default NULL, `deal_status` default 'open'). -/
/- ------------------------------------------------------------------ -/

structure Client where
  id : Nat
  full_name : String
  email : String
  phone : Option String
  company : Option String
  deriving Repr, DecidableEq

structure Inquiry where
  id : Nat
  client_id : Nat
  subject : String
  message : String
  status : String
  received_at : Nat
  responded_at : Option Nat
  deriving Repr, DecidableEq

structure DBResponse where
  id : Nat
  inquiry_id : Nat
  user_id : Nat
  response_text : String
  sent_at : Nat
  client_replied : Nat
  follow_up_method : Option String
  deal_status : String
  deriving Repr, DecidableEq

structure ConversationMessage where
  id : Nat
  response_id : Nat
  sender : String
  message : String
  sent_at : Nat
  deriving Repr, DecidableEq

structure Publisher where
  name : String
  email : String
  category : String
  status : String
  deriving Repr, DecidableEq

structure DB where
  clients : List Client
  inquiries : List Inquiry
  responses : List DBResponse
  messages : List ConversationMessage
  nextClientId : Nat
  nextInquiryId : Nat
  nextResponseId : Nat
  nextMessageId : Nat
  deriving Repr, DecidableEq

/-- The empty database (fresh file, AUTOINCREMENT counters at 1). -/
def DB.empty : DB :=
  { clients := [], inquiries := [], responses := [], messages := []
    nextClientId := 1, nextInquiryId := 1, nextResponseId := 1, nextMessageId := 1 }

/-- Environment of a request: `datetime.utcnow()` as a tick count and
`datetime.now().strftime('%d/%m/%Y')` as a date string. -/
structure Env where
  now : Nat
  currentDate : String
  deriving Repr

/-- Well-formedness invariants maintained by the embedded operations:
AUTOINCREMENT ids are below the next-id counters, inquiry ids are unique,
and responses reference existing inquiries. -/
def DB.wf (db : DB) : Prop :=
  (∀ c ∈ db.clients, c.id < db.nextClientId) ∧
  (∀ i ∈ db.inquiries, i.id < db.nextInquiryId) ∧
  (∀ r ∈ db.responses, r.id < db.nextResponseId) ∧
  (∀ m ∈ db.messages, m.id < db.nextMessageId) ∧
  (∀ m ∈ db.messages, m.response_id < db.nextResponseId) ∧
  (∀ r ∈ db.responses, ∃ i ∈ db.inquiries, i.id = r.inquiry_id) ∧
  (∀ i ∈ db.inquiries, ∀ j ∈ db.inquiries, i.id = j.id → i = j)

instance (db : DB) : Decidable db.wf := by
  unfold DB.wf; infer_instance

/- ------------------------------------------------------------------ -/
/- `database.py` — `Database.get_paginated` -/
/- ------------------------------------------------------------------ -/

/-- Result shape of `get_paginated` (and of the paginated list endpoints). -/
structure Paginated (α : Type) where
  data : List α
  total : Nat
  page : Nat
  pages : Nat
  per_page : Nat
  deriving Repr, DecidableEq

/-- `database.py, get_paginated`: counts the rows matching the where-clause,
fetches one page of the ordered matching rows with `LIMIT per_page OFFSET
(page-1)*per_page`, and reports `pages = (total + per_page - 1) // per_page`.
`table` is the table's row list, `matches` the where-clause predicate, and
`orderBy` the reordering performed by the `ORDER BY` clause (a permutation
of its input). -/
def get_paginated (table : List α) (whereC : α → Bool)
    (orderBy : List α → List α) (page per_page : Nat) : Paginated α :=
  let filtered := table.filter whereC
  let total := filtered.length
  let ordered := orderBy filtered
  { data := (ordered.drop ((page - 1) * per_page)).take per_page
    total := total
    page := page
    pages := (total + per_page - 1) / per_page
    per_page := per_page }

/-- All data pages of a `get_paginated` query, for page numbers 1..pages. -/
def allPages (table : List α) (whereC : α → Bool)
    (orderBy : List α → List α) (per_page : Nat) : List α :=
  (List.range (get_paginated table whereC orderBy 1 per_page).pages).flatMap
    fun i => (get_paginated table whereC orderBy (i + 1) per_page).data

/- Generic chunking lemmas used for the pagination claims. -/

theorem chunk_flatMap_eq (p : Nat) (hp : 1 ≤ p) :
    ∀ l : List α,
      (List.range ((l.length + p - 1) / p)).flatMap
        (fun i => (l.drop (i * p)).take p) = l := by
  intro l
  generalize hn : l.length = n
  induction n using Nat.strong_induction_on generalizing l with
  | _ n ih =>
    cases l with
    | nil =>
      simp at hn
      subst hn
      have hz : (0 + p - 1) / p = 0 := by
        have : p - 1 < p := Nat.sub_lt (Nat.lt_of_lt_of_le Nat.zero_lt_one hp) Nat.zero_lt_one
        simp [Nat.div_eq_of_lt this]
      simp [hz]
    | cons a t =>
      have hpos : 1 ≤ n := by
        subst hn; simp [Nat.succ_le_succ]
      have hpages : (n + p - 1) / p = (n - 1) / p + 1 := by
        have h1 : n + p - 1 = (n - 1) + p := by omega
        rw [h1, Nat.add_div_right _ (Nat.lt_of_lt_of_le Nat.zero_lt_one hp)]
      have hdroplen : ((a :: t).drop p).length = n - p := by
        simp [List.length_drop, hn]
      have htail : (List.range ((n - p + p - 1) / p)).flatMap
          (fun i => (((a :: t).drop p).drop (i * p)).take p) = (a :: t).drop p := by
        have := ih (n - p) (by omega) ((a :: t).drop p) hdroplen
        simpa using this
      have hpages2 : (n - p + p - 1) / p = (n - 1) / p := by
        rcases Nat.le_total p n with hle | hgt
        · congr 1; omega
        · have h1 : n - p = 0 := by omega
          have h2 : (n - 1) / p = 0 := Nat.div_eq_of_lt (by omega)
          rw [h1, h2]
          have : 0 + p - 1 = p - 1 := by omega
          rw [this, Nat.div_eq_of_lt (by omega)]
      rw [hpages, List.range_succ_eq_map, List.flatMap_cons]
      have hshift : ((List.range ((n - 1) / p)).map (· + 1)).flatMap
          (fun i => (((a :: t)).drop (i * p)).take p)
          = (List.range ((n - 1) / p)).flatMap
              (fun i => (((a :: t).drop p).drop (i * p)).take p) := by
        rw [List.flatMap_map]
        apply List.flatMap_congr
        intro i _
        have : (i + 1) * p = p + i * p := by ring
        simp [this, List.drop_drop, Nat.add_comm]
      rw [hshift, ← hpages2, htail]
      simp [List.take_append_drop]

/-- `(n + p - 1) / p` is the ceiling of `n / p`: it is large enough, and it
is the least such multiplier. -/
theorem ceil_div_spec (n p : Nat) (hp : 1 ≤ p) :
    n ≤ ((n + p - 1) / p) * p ∧ ∀ k, n ≤ k * p → (n + p - 1) / p ≤ k := by
  constructor
  · rcases Nat.eq_zero_or_pos n with h0 | hpos
    · simp [h0]
    · have h1 : n + p - 1 = (n - 1) + p := by omega
      rw [h1, Nat.add_div_right _ (by omega)]
      have hdm := Nat.div_add_mod (n - 1) p
      have hmod : (n - 1) % p < p := Nat.mod_lt _ (by omega)
      have h2 : ((n - 1) / p + 1) * p = p * ((n - 1) / p) + p := by ring
      rw [h2]
      omega
  · intro k hk
    have hlt : n + p - 1 < (k + 1) * p := by
      have : (k + 1) * p = k * p + p := by ring
      omega
    have := (Nat.div_lt_iff_lt_mul (show 0 < p by omega)).mpr hlt
    omega

/-- Rows at offsets at or past the ceiling page count are gone. -/
theorem drop_page_past_end (p : Nat) (hp : 1 ≤ p) (l : List α) (i : Nat)
    (hi : (l.length + p - 1) / p ≤ i) : l.drop (i * p) = [] := by
  apply List.drop_eq_nil_of_le
  calc l.length ≤ ((l.length + p - 1) / p) * p := (ceil_div_spec l.length p hp).1
    _ ≤ i * p := Nat.mul_le_mul_right p hi


/- ------------------------------------------------------------------ -/
/- `database.py` — `Database.bulk_insert_publishers` -/
/- ------------------------------------------------------------------ -/

/-- An element of `publishers_data`: a dict whose `name`/`email` keys may be
missing (`p.get('name')` is `None`) and whose `category`/`status` keys get
defaults `''` / `'active'`. -/
structure PublisherInput where
  name : Option String
  email : Option String
  category : Option String
  status : Option String
  deriving Repr, DecidableEq

/-- The parameter tuple built for one record:
`(p.get('name'), p.get('email'), p.get('category',''), p.get('status','active'))`.
The first two stay optional (SQL `NULL` when missing). -/
def publisherParams (p : PublisherInput) :
    Option String × Option String × String × String :=
  (p.name, p.email, p.category.getD "", p.status.getD "active")

/-- One `INSERT OR IGNORE INTO publishers (name,email,category,status)`:
a `NULL` name or email violates NOT NULL, and an email already present
violates UNIQUE; in both cases the row is ignored and contributes 0 to the
statement's change count, otherwise it is appended and contributes 1. -/
def insertOrIgnorePublisher (tbl : List Publisher) (p : PublisherInput) :
    List Publisher × Nat :=
  match publisherParams p with
  | (some nm, some em, cat, st) =>
    if tbl.any (fun q => q.email = em) then (tbl, 0)
    else (tbl ++ [⟨nm, em, cat, st⟩], 1)
  | _ => (tbl, 0)

/-- One step of `executemany`: run the statement for one parameter tuple
and add its change count. -/
def insStep (acc : List Publisher × Nat) (p : PublisherInput) :
    List Publisher × Nat :=
  let (tbl', n) := insertOrIgnorePublisher acc.1 p
  (tbl', acc.2 + n)

/-- `database.py, execute_many` applied to the insert-or-ignore statement:
runs it once per parameter tuple inside one transaction and returns the
number of affected (actually inserted) rows. -/
def execute_many_publishers (tbl : List Publisher) (batch : List PublisherInput) :
    List Publisher × Nat :=
  batch.foldl insStep (tbl, 0)

/-- `range(0, len(params_list), batch_size)` slicing with
`Config.BATCH_SIZE = 100`. -/
def toBatches (l : List PublisherInput) : List (List PublisherInput) :=
  match l with
  | [] => []
  | x :: xs => (x :: xs).take 100 :: toBatches ((x :: xs).drop 100)
  termination_by l.length
  decreasing_by simp [List.length_drop]; omega

/-- One iteration of the `for i in range(0, len(params_list), batch_size)`
loop: `total_inserted += self.execute_many(query, batch)`. -/
def bulkStep (acc : List Publisher × Nat) (batch : List PublisherInput) :
    List Publisher × Nat :=
  let (tbl', n) := execute_many_publishers acc.1 batch
  (tbl', acc.2 + n)

/-- `database.py, bulk_insert_publishers`: partitions the input into batches
of 100, bulk-executes each batch, and sums the per-batch inserted counts. -/
def bulk_insert_publishers (tbl : List Publisher) (data : List PublisherInput) :
    List Publisher × Nat :=
  (toBatches data).foldl bulkStep (tbl, 0)

/- ------------------------------------------------------------------ -/
/- `auth.py` — `AuthManager.get_current_user` -/
/- ------------------------------------------------------------------ -/

structure User where
  id : Nat
  username : String
  password_hash : String
  full_name : String
  email : String
  is_active : Nat
  deriving Repr, DecidableEq

/-- The Flask session as written by `AuthManager.login` /
`login_by_email`: `user_id`, `username`, `token` and `login_time` are always
stored together; an absent session has none of them. -/
structure SessionData where
  user_id : Nat
  username : String
  token : String
  login_time : Nat
  deriving Repr, DecidableEq

/-- The public projection returned by `get_current_user`. -/
structure PublicUser where
  id : Nat
  username : String
  full_name : String
  email : String
  deriving Repr, DecidableEq

/-- `models.py, User.get_by_username`:
`SELECT * FROM users WHERE username = ? AND is_active = 1`. -/
def get_by_username (users : List User) (uname : String) : Option User :=
  users.find? (fun u => u.username = uname && u.is_active = 1)

/-- `auth.py, AuthManager.get_current_user`: absent when no session exists;
when the session's login time is more than `Config.SESSION_TIMEOUT = 3600`
seconds in the past the session is cleared and the result is absent; when
the referenced user is no longer an active user the session is cleared and
the result is absent; otherwise the public projection is returned and the
session kept.  Returns the result together with the session left behind. -/
def get_current_user (users : List User) (sess : Option SessionData)
    (now : Nat) : Option PublicUser × Option SessionData :=
  match sess with
  | none => (none, none)
  | some s =>
    if s.login_time + 3600 < now then (none, none)
    else
      match get_by_username users s.username with
      | none => (none, none)
      | some u => (some ⟨u.id, u.username, u.full_name, u.email⟩, some s)

/- ------------------------------------------------------------------ -/
/- `ai_assistant.py` — `AIAssistant._summarize_openai_compatible` -/
/- ------------------------------------------------------------------ -/

/-- Outcome of the chat-completion POST: `some content` when the request
succeeded with the assistant text, `none` when any exception was raised
(endpoint unreachable, non-2xx status, malformed payload). -/
abbrev ChatOutcome := Option String

/-- `ai_assistant.py, _summarize_openai_compatible`: on success returns the
trimmed assistant message; on any exception returns
`text[:max_length] + "..." if len(text) > max_length else text`. -/
def summarize_openai_compatible (outcome : ChatOutcome) (text : String)
    (max_length : Nat) : String :=
  match outcome with
  | some content => content.trim
  | none =>
    if text.length > max_length then text.take max_length ++ "..." else text

/- ------------------------------------------------------------------ -/
/- `app.py` — `GET /api/clients` (`get_clients`) -/
/- ------------------------------------------------------------------ -/

/-- `app.py, get_clients`: when `search` is non-empty the data query gets
`WHERE full_name LIKE ? OR email LIKE ?`, then `LIMIT per_page OFFSET
(page-1)*per_page`; the total is taken from the unfiltered
`SELECT COUNT(*) FROM clients`. -/
def get_clients (db : DB) (page per_page : Nat) (search : String) :
    Paginated Client :=
  let filtered :=
    if search ≠ "" then
      db.clients.filter (fun c => sqlLike c.full_name search || sqlLike c.email search)
    else db.clients
  let rows := (filtered.drop ((page - 1) * per_page)).take per_page
  let total := db.clients.length
  { data := rows
    total := total
    page := page
    pages := (total + per_page - 1) / per_page
    per_page := per_page }

/- ------------------------------------------------------------------ -/
/- `app.py` — `POST /api/responses` (`create_response`) -/
/- ------------------------------------------------------------------ -/

/-- `app.py, create_response`: 400 when `inquiry_id` or `response_text` is
missing or falsy; otherwise inserts the response row (defaults:
`client_replied = 0`, `follow_up_method` NULL, `deal_status = 'open'`),
seeds the conversation thread with one `agent` message carrying the
response text, and updates the inquiry to `status='responded'` with
`responded_at = datetime.utcnow()`.  Returns the new state and response id,
or `none` for the 400 path. -/
def create_response (env : Env) (db : DB) (user_id : Nat)
    (inquiry_id : Option Nat) (response_text : Option String) :
    Option (DB × Nat) :=
  match inquiry_id, response_text with
  | some iid, some txt =>
    if iid = 0 || txt = "" then none
    else
      let rid := db.nextResponseId
      let db1 : DB :=
        { db with
          responses := db.responses ++
            [⟨rid, iid, user_id, txt, env.now, 0, none, "open"⟩]
          nextResponseId := rid + 1 }
      let db2 : DB :=
        { db1 with
          messages := db1.messages ++
            [⟨db1.nextMessageId, rid, "agent", txt, env.now⟩]
          nextMessageId := db1.nextMessageId + 1 }
      let db3 : DB :=
        { db2 with
          inquiries := db2.inquiries.map (fun i =>
            if i.id = iid then
              { i with status := "responded", responded_at := some env.now }
            else i) }
      some (db3, rid)
  | _, _ => none

/-- The conversation thread of a response:
`SELECT ... FROM conversation_messages WHERE response_id = ?`. -/
def thread (db : DB) (rid : Nat) : List ConversationMessage :=
  db.messages.filter (fun m => m.response_id = rid)

/- ------------------------------------------------------------------ -/
/- `app.py` — `POST /api/email/sync` (`sync_emails`) -/
/- ------------------------------------------------------------------ -/

/-- One record from `email_handler.fetch_new_emails()`. -/
structure EmailData where
  from_email : String
  subject : String
  body : String
  deriving Repr, DecidableEq

/-- Results of the four regex extraction cascades run over the body
(`phone_patterns`, `company_patterns`, `name_patterns`, `email_patterns`
with the no-reply blacklist).  The regex engine itself is not embedded; the
cascades are pure functions of the body whose outputs are taken as given
here, and every regex match is a non-empty string by construction of the
patterns. -/
structure Extracted where
  phone : Option String
  company : Option String
  nameMatch : Option String
  emailMatch : Option String
  deriving Repr, DecidableEq

/-- `full_name = from_email.split('@')[0]`, overwritten by a name match. -/
def resolvedName (e : EmailData) (ex : Extracted) : String :=
  match ex.nameMatch with
  | some n => n
  | none => localPart e.from_email

/-- `client_email = extracted or from_email` (falsy extraction falls back). -/
def resolvedEmail (e : EmailData) (ex : Extracted) : String :=
  match ex.emailMatch with
  | some m => if m = "" then e.from_email else m
  | none => e.from_email

/-- `valid_name = bool(full_name and full_name != from_email.split('@')[0]
and len(full_name) > 2)`. -/
def valid_name (e : EmailData) (ex : Extracted) : Bool :=
  let fn := resolvedName e ex
  fn ≠ "" && fn ≠ localPart e.from_email && fn.length > 2

/-- `valid_email = bool(client_email and '@' in client_email)`. -/
def valid_email (e : EmailData) (ex : Extracted) : Bool :=
  let ce := resolvedEmail e ex
  ce ≠ "" && charIn '@' ce

/-- `valid_phone = bool(phone)`. -/
def valid_phone (ex : Extracted) : Bool :=
  truthyOpt ex.phone

/-- `valid_company = bool(company and len(company) > 1)`. -/
def valid_company (ex : Extracted) : Bool :=
  match ex.company with
  | some c => c ≠ "" && c.length > 1
  | none => false

/-- `valid_fields_count = sum([valid_name, valid_email, valid_phone,
valid_company])`. -/
def valid_fields_count (e : EmailData) (ex : Extracted) : Nat :=
  (if valid_name e ex then 1 else 0) + (if valid_email e ex then 1 else 0) +
    (if valid_phone ex then 1 else 0) + (if valid_company ex then 1 else 0)

/-- `MIN_REQUIRED_FIELDS = 3`. -/
def MIN_REQUIRED_FIELDS : Nat := 3

/-- Subject synthesis: an all-whitespace original subject is replaced by
`"<company|full_name> - <DD/MM/YYYY>"`. -/
def resolvedSubject (env : Env) (e : EmailData) (ex : Extracted)
    (fn : String) : String :=
  let raw := pyStrip e.subject
  if raw = "" then
    match ex.company with
    | some c => if c ≠ "" then c ++ " - " ++ env.currentDate
                else fn ++ " - " ++ env.currentDate
    | none => fn ++ " - " ++ env.currentDate
  else raw

/-- `SELECT id, email FROM clients WHERE full_name = ? AND company = ?`
with parameters `(full_name, company if company else '')`.  A stored
`NULL` company never compares equal to any parameter. -/
def findClient (clients : List Client) (fn : String) (companyParam : String) :
    Option Client :=
  clients.find? (fun c => c.full_name = fn && sqlEqOpt c.company companyParam)

/-- `company if company else ''` — the lookup parameter. -/
def companyParamOf (company : Option String) : String :=
  match company with
  | some c => c
  | none => ""

/-- The synthetic client email
`f"{name_slug}.{company_slug}@internal.local"` with
`company_slug = slug(company) if company else 'unknown'`. -/
def syntheticEmail (fn : String) (company : Option String) : String :=
  let nameSlug := slugify fn
  let companySlug :=
    match company with
    | some c => if c ≠ "" then slugify c else "unknown"
    | none => "unknown"
  nameSlug ++ "." ++ companySlug ++ "@internal.local"

/-- `INSERT INTO clients (full_name, email, phone, company)` against the
UNIQUE constraint on `clients.email` (`create_tables.py`): an existing row
with the same email raises `IntegrityError`, modelled as `Except.error`. -/
def insertClient (db : DB) (fn em : String) (phone company : Option String) :
    Except Unit (DB × Nat) :=
  if db.clients.any (fun c => c.email = em) then Except.error ()
  else
    let cid := db.nextClientId
    Except.ok
      ({ db with
         clients := db.clients ++ [⟨cid, fn, em, phone, company⟩]
         nextClientId := cid + 1 }, cid)

/-- Client resolution step of `sync_emails`: look up by (full name,
company-parameter); create with the synthetic email when absent, update the
phone when present and a phone was extracted. -/
def resolveClient (db : DB) (fn : String) (phone company : Option String) :
    Except Unit (DB × Nat) :=
  match findClient db.clients fn (companyParamOf company) with
  | none => insertClient db fn (syntheticEmail fn company) phone company
  | some client =>
    if truthyOpt phone then
      Except.ok
        ({ db with
           clients := db.clients.map (fun c =>
             if c.id = client.id then { c with phone := phone } else c) },
         client.id)
    else Except.ok (db, client.id)

/-- Un-replied responses of a client:
`responses r JOIN inquiries i ON r.inquiry_id = i.id WHERE i.client_id = ?
AND r.client_replied = 0`. -/
def respCandidates (db : DB) (cid : Nat) : List DBResponse :=
  db.responses.filter (fun r =>
    r.client_replied = 0 &&
      ((db.inquiries.find? (fun i => i.id = r.inquiry_id)).any
        (fun i => i.client_id = cid)))

/-- `ORDER BY r.sent_at DESC LIMIT 1`: the first listed response of maximal
`sent_at`. -/
def maxBySentAt : List DBResponse → Option DBResponse
  | [] => none
  | r :: rs =>
    match maxBySentAt rs with
    | none => some r
    | some m => if r.sent_at < m.sent_at then some m else some r

/-- The most recent un-replied response over all of a client's inquiries. -/
def latestUnreplied (db : DB) (cid : Nat) : Option DBResponse :=
  maxBySentAt (respCandidates db cid)

/-- Auto-detection step: when the client has a pending (un-replied)
response, mark the most recent one replied with follow-up method `email`
and append the inbound body as a `client` message to its thread. -/
def autoDetect (env : Env) (db : DB) (cid : Nat) (body : String) : DB :=
  match latestUnreplied db cid with
  | none => db
  | some resp =>
    let db1 : DB :=
      { db with
        responses := db.responses.map (fun r =>
          if r.id = resp.id then
            { r with client_replied := 1, follow_up_method := some "email" }
          else r) }
    { db1 with
      messages := db1.messages ++
        [⟨db1.nextMessageId, resp.id, "client", body, env.now⟩]
      nextMessageId := db1.nextMessageId + 1 }

/-- Inquiry insertion step with duplicate suppression: skip when an inquiry
of this client with the same subject and message exists; otherwise insert a
`pending` inquiry and run auto-detection.  Returns the new state and
whether an inquiry was created. -/
def insertInquiryStep (env : Env) (db : DB) (cid : Nat)
    (subject body : String) : DB × Bool :=
  match db.inquiries.find? (fun i =>
      i.client_id = cid && i.subject = subject && i.message = body) with
  | some _ => (db, false)
  | none =>
    let iid := db.nextInquiryId
    let db1 : DB :=
      { db with
        inquiries := db.inquiries ++
          [⟨iid, cid, subject, body, "pending", env.now, none⟩]
        nextInquiryId := iid + 1 }
    (autoDetect env db1 cid body, true)

/-- Per-message outcome inside `sync_emails`. -/
inductive MsgResult where
  | rejected
  | created
  | duplicate
  deriving Repr, DecidableEq

/-- Processing of one fetched email inside the `sync_emails` loop: field
extraction and validation, the ≥ 3-of-4 gate, subject synthesis, client
resolution and the inquiry/auto-detect transaction.  `Except.error` is an
uncaught SQL error inside the message's transaction (which is rolled
back). -/
def processEmail (env : Env) (db : DB) (e : EmailData) (ex : Extracted) :
    Except Unit (DB × MsgResult) :=
  if valid_fields_count e ex < MIN_REQUIRED_FIELDS then
    Except.ok (db, MsgResult.rejected)
  else
    let fn := resolvedName e ex
    let subject := resolvedSubject env e ex fn
    match resolveClient db fn ex.phone ex.company with
    | Except.error u => Except.error u
    | Except.ok (db1, cid) =>
      match insertInquiryStep env db1 cid subject e.body with
      | (db2, true) => Except.ok (db2, MsgResult.created)
      | (db2, false) => Except.ok (db2, MsgResult.duplicate)

/-- Result of the whole `POST /api/email/sync` request. -/
inductive SyncResult where
  | ok (count rejected total_processed : Nat)
  | err500
  deriving Repr, DecidableEq

/-- The `for email_data in new_emails` loop: accumulates the created and
rejected counters; the first uncaught exception aborts the loop (the
failing message's transaction is rolled back, earlier messages stay
committed) and the handler returns HTTP 500. -/
def syncLoop (env : Env) (db : DB) :
    List (EmailData × Extracted) → Nat → Nat → DB × SyncResult
  | [], count, rejected => (db, SyncResult.ok count rejected (count + rejected))
  | (e, ex) :: rest, count, rejected =>
    match processEmail env db e ex with
    | Except.error _ => (db, SyncResult.err500)
    | Except.ok (db', MsgResult.rejected) => syncLoop env db' rest count (rejected + 1)
    | Except.ok (db', MsgResult.created) => syncLoop env db' rest (count + 1) rejected
    | Except.ok (db', MsgResult.duplicate) => syncLoop env db' rest count rejected

/-- `app.py, sync_emails`: processes the fetched messages and reports the
created and rejected counts (200), or 500 on an uncaught error. -/
def sync_emails (env : Env) (db : DB) (msgs : List (EmailData × Extracted)) :
    DB × SyncResult :=
  let r := syncLoop env db msgs 0 0
  match r.2 with
  | SyncResult.ok count rejected _ => (r.1, SyncResult.ok count rejected msgs.length)
  | SyncResult.err500 => (r.1, SyncResult.err500)

/- ================================================================== -/
/- Theorems for the claims -/
/- ================================================================== -/

/-- C5: `get_paginated` reports `total` as the number of rows matching the
where-clause ignoring pagination, echoes the requested page number,
computes `pages` as the ceiling of `total / per_page` (characterized as the
least page count covering all matching rows), and the data rows
concatenated over pages `1..pages` are a permutation of — hence equal as a
row set to — the full matching row set. -/
theorem get_paginated_correct (table : List α) (whereC : α → Bool)
    (orderBy : List α → List α) (page per_page : Nat)
    (hperm : ∀ l : List α, (orderBy l).Perm l) (hp : 1 ≤ per_page) :
    (get_paginated table whereC orderBy page per_page).total
        = (table.filter whereC).length ∧
    (get_paginated table whereC orderBy page per_page).page = page ∧
    ((get_paginated table whereC orderBy page per_page).total
        ≤ (get_paginated table whereC orderBy page per_page).pages * per_page ∧
      ∀ k, (get_paginated table whereC orderBy page per_page).total ≤ k * per_page →
        (get_paginated table whereC orderBy page per_page).pages ≤ k) ∧
    (allPages table whereC orderBy per_page).Perm (table.filter whereC) := by
  refine ⟨rfl, rfl,
    ⟨(ceil_div_spec (table.filter whereC).length per_page hp).1,
      (ceil_div_spec (table.filter whereC).length per_page hp).2⟩, ?_⟩
  have hlen : (orderBy (table.filter whereC)).length = (table.filter whereC).length :=
    (hperm (table.filter whereC)).length_eq
  have key : allPages table whereC orderBy per_page = orderBy (table.filter whereC) := by
    have h1 : allPages table whereC orderBy per_page
        = (List.range (((table.filter whereC).length + per_page - 1) / per_page)).flatMap
            (fun i => ((orderBy (table.filter whereC)).drop (i * per_page)).take per_page) := by
      simp [allPages, get_paginated]
    rw [h1, ← hlen]
    exact chunk_flatMap_eq per_page hp (orderBy (table.filter whereC))
  rw [key]
  exact hperm (table.filter whereC)

set_option maxRecDepth 8192 in
/-- Witness for the pagination theorem: 125 rows with `per_page = 50` give
`total = 125`, `pages = 3`, page sizes 50/50/25, and the pages together
cover all 125 rows. -/
theorem get_paginated_correct_witness :
    (get_paginated (List.range 125) (fun _ => true) id 2 50).total = 125 ∧
    (get_paginated (List.range 125) (fun _ => true) id 2 50).page = 2 ∧
    (get_paginated (List.range 125) (fun _ => true) id 2 50).pages = 3 ∧
    (get_paginated (List.range 125) (fun _ => true) id 1 50).data.length = 50 ∧
    (get_paginated (List.range 125) (fun _ => true) id 2 50).data.length = 50 ∧
    (get_paginated (List.range 125) (fun _ => true) id 3 50).data.length = 25 ∧
    (allPages (List.range 125) (fun _ => true) id 50).Perm
      ((List.range 125).filter (fun _ => true)) := by
  have h := get_paginated_correct (List.range 125) (fun _ => true) id 2 50
    (fun l => List.Perm.refl l) (by omega)
  exact ⟨h.1.trans (by decide), h.2.1, by decide, by decide, by decide, by decide, h.2.2.2⟩

/-- C7: `get_current_user` is absent exactly when there is no session, or
the session's login timestamp lies more than 3600 seconds before the
current time (in which case the session is cleared), or the session's
referenced user is no longer found among active users (session also
cleared); otherwise it returns the logged-in user's public projection
(id, username, full name, email) and keeps the session. -/
theorem get_current_user_correct (users : List User) (sess : Option SessionData)
    (now : Nat) :
    ((get_current_user users sess now).1 = none ↔
      sess = none ∨ ∃ s, sess = some s ∧
        (s.login_time + 3600 < now ∨ get_by_username users s.username = none)) ∧
    (∀ s : SessionData, s.login_time + 3600 < now →
      get_current_user users (some s) now = (none, none)) ∧
    (∀ s : SessionData, get_by_username users s.username = none →
      get_current_user users (some s) now = (none, none)) ∧
    (∀ (s : SessionData) (u : User), ¬ s.login_time + 3600 < now →
      get_by_username users s.username = some u →
      get_current_user users (some s) now =
        (some ⟨u.id, u.username, u.full_name, u.email⟩, some s)) := by
  refine ⟨?_, ?_, ?_, ?_⟩
  · cases sess with
    | none => exact Iff.intro (fun _ => Or.inl rfl) (fun _ => rfl)
    | some s =>
      by_cases hto : s.login_time + 3600 < now
      · have eq1 : get_current_user users (some s) now = (none, none) := by
          simp [get_current_user, hto]
        exact Iff.intro (fun _ => Or.inr ⟨s, rfl, Or.inl hto⟩) (fun _ => by rw [eq1])
      · cases hu : get_by_username users s.username with
        | none =>
          have eq1 : get_current_user users (some s) now = (none, none) := by
            simp [get_current_user, hto, hu]
          exact Iff.intro (fun _ => Or.inr ⟨s, rfl, Or.inr hu⟩) (fun _ => by rw [eq1])
        | some u =>
          have eq1 : get_current_user users (some s) now =
              (some ⟨u.id, u.username, u.full_name, u.email⟩, some s) := by
            simp [get_current_user, hto, hu]
          constructor
          · intro h
            rw [eq1] at h
            exact Option.noConfusion h
          · intro h
            rcases h with h | ⟨s2, hs2, hcase⟩
            · exact Option.noConfusion h
            · injection hs2 with h2
              subst h2
              rcases hcase with h3 | h3
              · exact absurd h3 hto
              · rw [hu] at h3
                exact Option.noConfusion h3
  · intro s hto
    simp [get_current_user, hto]
  · intro s hnone
    by_cases hto : s.login_time + 3600 < now
    · simp [get_current_user, hto]
    · simp [get_current_user, hto, hnone]
  · intro s u hnto hfind
    simp [get_current_user, hnto, hfind]

/-- Witness for the session theorem: a session 3601 seconds old is torn
down, and a fresh session returns the public projection. -/
theorem get_current_user_correct_witness :
    get_current_user [⟨1, "alice", "h", "Alice A", "alice@x.com", 1⟩]
        (some ⟨1, "alice", "t", 10⟩) 3611 = (none, none) ∧
    get_current_user [⟨1, "alice", "h", "Alice A", "alice@x.com", 1⟩]
        (some ⟨1, "alice", "t", 10⟩) 3610 =
      (some ⟨1, "alice", "Alice A", "alice@x.com"⟩, some ⟨1, "alice", "t", 10⟩) := by
  constructor
  · exact (get_current_user_correct [⟨1, "alice", "h", "Alice A", "alice@x.com", 1⟩]
      (some ⟨1, "alice", "t", 10⟩) 3611).2.1 ⟨1, "alice", "t", 10⟩ (by decide)
  · exact (get_current_user_correct [⟨1, "alice", "h", "Alice A", "alice@x.com", 1⟩]
      (some ⟨1, "alice", "t", 10⟩) 3610).2.2.2 ⟨1, "alice", "t", 10⟩
      ⟨1, "alice", "h", "Alice A", "alice@x.com", 1⟩ (by decide) (by decide)

/-- C8: when the chat-completion request fails, the summary fallback
returns the first `max_length` characters of the text followed by an
ellipsis when the text is longer than `max_length`, and the text unchanged
otherwise; the fallback is a total function, so no exception reaches the
caller. -/
theorem summarize_fallback_correct (text : String) (max_length : Nat) :
    (text.length > max_length →
      summarize_openai_compatible none text max_length
        = text.take max_length ++ "...") ∧
    (text.length ≤ max_length →
      summarize_openai_compatible none text max_length = text) := by
  constructor
  · intro h
    simp [summarize_openai_compatible, h]
  · intro h
    simp [summarize_openai_compatible, Nat.not_lt.mpr h]

/-- Witness for the summary fallback: a 30-character input with
`max_length = 10` yields its first 10 characters plus an ellipsis. -/
theorem summarize_fallback_correct_witness :
    summarize_openai_compatible none "abcdefghijklmnopqrstuvwxyz1234" 10
      = "abcdefghij..." :=
  ((summarize_fallback_correct "abcdefghijklmnopqrstuvwxyz1234" 10).1
    (by decide)).trans (by decide)

/-- C9: with a non-empty search term, `GET /api/clients` reports `total`
(and the `pages` derived from it) from the unfiltered `COUNT(*)` over all
clients, while `data` holds only the rows whose name or email matches the
search substring; when the filter matches fewer clients than exist, `total`
strictly exceeds the number of rows reachable across all pages. -/
theorem get_clients_total_ignores_search (db : DB) (page per_page : Nat)
    (search : String) (hs : search ≠ "") :
    (get_clients db page per_page search).total = db.clients.length ∧
    (get_clients db page per_page search).pages
        = (db.clients.length + per_page - 1) / per_page ∧
    (get_clients db page per_page search).data
        = ((db.clients.filter
              (fun c => sqlLike c.full_name search || sqlLike c.email search)).drop
            ((page - 1) * per_page)).take per_page ∧
    (∀ p', ∀ c ∈ (get_clients db p' per_page search).data,
        c ∈ db.clients.filter
          (fun c => sqlLike c.full_name search || sqlLike c.email search)) ∧
    ((db.clients.filter
          (fun c => sqlLike c.full_name search || sqlLike c.email search)).length
        < db.clients.length →
      (db.clients.filter
          (fun c => sqlLike c.full_name search || sqlLike c.email search)).length
        < (get_clients db page per_page search).total) := by
  refine ⟨by simp [get_clients, hs], by simp [get_clients, hs],
    by simp [get_clients, hs], ?_, ?_⟩
  · intro p' c hc
    simp only [get_clients, hs, if_pos, ne_eq, not_false_iff] at hc
    have h1 := List.take_subset _ _ hc
    exact List.drop_subset _ _ h1
  · intro hlt
    simpa [get_clients, hs] using hlt

/-- Witness for the search-total mismatch: two clients, a search matching
one of them, `total = 2` while only one row is reachable. -/
theorem get_clients_total_ignores_search_witness :
    (get_clients
        ⟨[⟨1, "Alice A", "alice@x.com", none, none⟩,
          ⟨2, "Bob B", "bob@y.com", none, none⟩], [], [], [], 3, 1, 1, 1⟩
        1 50 "ali").total = 2 ∧
    ((⟨[⟨1, "Alice A", "alice@x.com", none, none⟩,
        ⟨2, "Bob B", "bob@y.com", none, none⟩], [], [], [], 3, 1, 1, 1⟩ : DB).clients.filter
        (fun c => sqlLike c.full_name "ali" || sqlLike c.email "ali")).length
      < (get_clients
        ⟨[⟨1, "Alice A", "alice@x.com", none, none⟩,
          ⟨2, "Bob B", "bob@y.com", none, none⟩], [], [], [], 3, 1, 1, 1⟩
        1 50 "ali").total := by
  have h := get_clients_total_ignores_search
    ⟨[⟨1, "Alice A", "alice@x.com", none, none⟩,
      ⟨2, "Bob B", "bob@y.com", none, none⟩], [], [], [], 3, 1, 1, 1⟩
    1 50 "ali" (by decide)
  exact ⟨h.1.trans (by decide), h.2.2.2.2 (by decide)⟩

/- Lemmas about the publisher bulk insert. -/

theorem insFold_acc (l : List PublisherInput) :
    ∀ (t : List Publisher) (a : Nat),
      l.foldl insStep (t, a)
        = ((l.foldl insStep (t, 0)).1, a + (l.foldl insStep (t, 0)).2) := by
  induction l with
  | nil => intro t a; simp
  | cons p l ih =>
    intro t a
    simp only [List.foldl_cons]
    rcases h : insertOrIgnorePublisher t p with ⟨t', n⟩
    simp only [insStep, h]
    rw [ih t' (a + n), ih t' (0 + n)]
    simp only [Nat.zero_add]
    rw [Nat.add_assoc]

theorem insFold_length (l : List PublisherInput) :
    ∀ t : List Publisher,
      (l.foldl insStep (t, 0)).1.length = t.length + (l.foldl insStep (t, 0)).2 := by
  induction l with
  | nil => intro t; simp
  | cons p l ih =>
    intro t
    simp only [List.foldl_cons]
    rcases h : insertOrIgnorePublisher t p with ⟨t', n⟩
    have hlen : t'.length = t.length + n := by
      unfold insertOrIgnorePublisher at h
      rcases p with ⟨pn, pe, pc, ps⟩
      cases pn with
      | none => simp [publisherParams] at h; simp [h.1.symm, h.2.symm]
      | some nm =>
        cases pe with
        | none => simp [publisherParams] at h; simp [h.1.symm, h.2.symm]
        | some em =>
          simp only [publisherParams] at h
          by_cases hd : t.any (fun q => q.email = em)
          · rw [if_pos hd] at h
            cases h; simp
          · rw [if_neg hd] at h
            cases h; simp
    simp only [insStep, h]
    rw [insFold_acc l t' (0 + n), ih t']
    omega

theorem bulkFold_flat (bs : List (List PublisherInput)) :
    ∀ (t : List Publisher) (a : Nat),
      bs.foldl bulkStep (t, a)
        = ((bs.flatten.foldl insStep (t, 0)).1,
            a + (bs.flatten.foldl insStep (t, 0)).2) := by
  induction bs with
  | nil => intro t a; simp
  | cons b bs ih =>
    intro t a
    simp only [List.foldl_cons, List.flatten_cons]
    rcases hb : execute_many_publishers t b with ⟨t1, n1⟩
    have hb' : b.foldl insStep (t, 0) = (t1, n1) := hb
    simp only [bulkStep, hb]
    rw [ih t1 (a + n1), List.foldl_append, hb', insFold_acc bs.flatten t1 n1]
    rw [Nat.add_assoc]

theorem join_toBatches : ∀ l : List PublisherInput, (toBatches l).flatten = l := by
  intro l
  generalize hn : l.length = n
  induction n using Nat.strong_induction_on generalizing l with
  | _ n ih =>
    cases l with
    | nil => simp [toBatches]
    | cons x xs =>
      rw [toBatches]
      have hn2 : n = xs.length + 1 := by
        simpa using hn.symm
      have hlen : ((x :: xs).drop 100).length < n := by
        rw [List.length_drop]
        simp only [List.length_cons]
        omega
      rw [List.flatten_cons, ih _ hlen _ rfl, List.take_append_drop]

theorem toBatches_mem_le (l : List PublisherInput) :
    ∀ b ∈ toBatches l, b.length ≤ 100 := by
  generalize hn : l.length = n
  induction n using Nat.strong_induction_on generalizing l with
  | _ n ih =>
    cases l with
    | nil => simp [toBatches]
    | cons x xs =>
      rw [toBatches]
      intro b hb
      rcases List.mem_cons.1 hb with h | h
      · subst h
        simpa using List.length_take_le 100 (x :: xs)
      · have hn2 : n = xs.length + 1 := by
          simpa using hn.symm
        have hlen : ((x :: xs).drop 100).length < n := by
          rw [List.length_drop]
          simp only [List.length_cons]
          omega
        exact ih _ hlen _ rfl b h

/-- Insert-or-ignore keeps any email that was already present. -/
theorem insertOrIgnore_email_mono (t : List Publisher) (p : PublisherInput)
    (em : String) (h : t.any (fun q => q.email = em)) :
    ((insertOrIgnorePublisher t p).1).any (fun q => q.email = em) := by
  rcases p with ⟨pn, pe, pc, ps⟩
  cases pn with
  | none => simpa [insertOrIgnorePublisher, publisherParams] using h
  | some nm =>
    cases pe with
    | none => simpa [insertOrIgnorePublisher, publisherParams] using h
    | some em' =>
      simp only [insertOrIgnorePublisher, publisherParams]
      by_cases hd : t.any (fun q => q.email = em')
      · simpa [hd] using h
      · simp only [hd, if_neg, Bool.false_eq_true, not_false_iff]
        rw [List.any_append]
        simp [h]

theorem insFold_email_mono (l : List PublisherInput) :
    ∀ (t : List Publisher) (a : Nat) (em : String),
      t.any (fun q => q.email = em) →
      ((l.foldl insStep (t, a)).1).any (fun q => q.email = em) := by
  induction l with
  | nil => intro t a em h; simpa using h
  | cons p l ih =>
    intro t a em h
    simp only [List.foldl_cons]
    rcases hstep : insertOrIgnorePublisher t p with ⟨t', n⟩
    simp only [insStep, hstep]
    apply ih
    have := insertOrIgnore_email_mono t p em h
    rwa [hstep] at this

/-- After a full pass, every processable record's email is present. -/
theorem insFold_saturates (l : List PublisherInput) :
    ∀ (t : List Publisher) (a : Nat),
      ∀ p ∈ l, ∀ nm em, p.name = some nm → p.email = some em →
        ((l.foldl insStep (t, a)).1).any (fun q => q.email = em) := by
  induction l with
  | nil => intro t a p hp; simp at hp
  | cons q l ih =>
    intro t a p hp nm em hnm hem
    simp only [List.foldl_cons]
    rcases hstep : insertOrIgnorePublisher t q with ⟨t', n⟩
    simp only [insStep, hstep]
    rcases List.mem_cons.1 hp with h | h
    · subst h
      apply insFold_email_mono
      have : ((insertOrIgnorePublisher t p).1).any (fun q => q.email = em) := by
        rcases p with ⟨pn, pe, pc, ps⟩
        cases hnm
        cases hem
        simp only [insertOrIgnorePublisher, publisherParams]
        by_cases hd : t.any (fun q => q.email = em)
        · simpa [hd] using hd
        · simp only [hd, if_neg, Bool.false_eq_true, not_false_iff]
          rw [List.any_append]
          simp
      rwa [hstep] at this
    · exact ih t' (a + n) p h nm em hnm hem

/-- A pass over records whose emails are all already present (or that are
unprocessable) changes nothing and inserts nothing. -/
theorem insFold_noop (l : List PublisherInput) :
    ∀ (t : List Publisher) (a : Nat),
      (∀ p ∈ l, ∀ nm em, p.name = some nm → p.email = some em →
        t.any (fun q => q.email = em)) →
      l.foldl insStep (t, a) = (t, a) := by
  induction l with
  | nil => intro t a _; rfl
  | cons q l ih =>
    intro t a hsat
    simp only [List.foldl_cons]
    have hq : insertOrIgnorePublisher t q = (t, 0) := by
      rcases q with ⟨qn, qe, qc, qs⟩
      cases qn with
      | none => simp [insertOrIgnorePublisher, publisherParams]
      | some nm =>
        cases qe with
        | none => simp [insertOrIgnorePublisher, publisherParams]
        | some em =>
          have := hsat ⟨some nm, some em, qc, qs⟩ (List.mem_cons_self _ _) nm em rfl rfl
          simp [insertOrIgnorePublisher, publisherParams, this]
    simp only [insStep, hq]
    have : a + 0 = a := by omega
    rw [this]
    exact ih t a (fun p hp => hsat p (List.mem_cons_of_mem _ hp))

/-- Batching by 100 does not change the result of the bulk insert. -/
theorem bulk_eq_flat (tbl : List Publisher) (data : List PublisherInput) :
    bulk_insert_publishers tbl data = execute_many_publishers tbl data := by
  unfold bulk_insert_publishers execute_many_publishers
  rw [bulkFold_flat, join_toBatches]
  rcases h : data.foldl insStep (tbl, 0) with ⟨t, c⟩
  simp

/-- C6: `bulk_insert_publishers` partitions its input into batches of at
most 100 whose concatenation is the input, and batching does not change the
outcome (it equals one flat insert-or-ignore pass); the returned count is
exactly the number of rows actually added to the table; a record whose
email is already stored inserts no row and contributes 0; and a second
bulk import of the same data inserts nothing and reports 0. -/
theorem bulk_insert_publishers_correct (tbl : List Publisher)
    (data : List PublisherInput) :
    ((toBatches data).flatten = data ∧ ∀ b ∈ toBatches data, b.length ≤ 100) ∧
    bulk_insert_publishers tbl data = execute_many_publishers tbl data ∧
    (bulk_insert_publishers tbl data).1.length
        = tbl.length + (bulk_insert_publishers tbl data).2 ∧
    (∀ p : PublisherInput, ∀ em, p.email = some em →
      tbl.any (fun q => q.email = em) →
      insertOrIgnorePublisher tbl p = (tbl, 0)) ∧
    bulk_insert_publishers (bulk_insert_publishers tbl data).1 data
        = ((bulk_insert_publishers tbl data).1, 0) := by
  have hflat := bulk_eq_flat tbl data
  refine ⟨⟨join_toBatches data, toBatches_mem_le data⟩, hflat, ?_, ?_, ?_⟩
  · rw [hflat]
    exact insFold_length data tbl
  · intro p em hem hany
    rcases p with ⟨pn, pe, pc, ps⟩
    cases hem
    cases pn with
    | none => simp [insertOrIgnorePublisher, publisherParams]
    | some nm => simp [insertOrIgnorePublisher, publisherParams, hany]
  · rw [bulk_eq_flat, hflat]
    unfold execute_many_publishers
    apply insFold_noop
    intro p hp nm em hnm hem
    exact insFold_saturates data tbl 0 p hp nm em hnm hem

/-- Witness for the bulk-import theorem: importing the same publisher twice
in one call stores one row and counts 1; re-importing it stores nothing and
counts 0; inserting over an existing email is a no-op contributing 0. -/
theorem bulk_insert_publishers_correct_witness :
    bulk_insert_publishers [⟨"P1", "p1@e.com", "", "active"⟩]
        [⟨some "P1", some "p1@e.com", none, none⟩]
      = ([⟨"P1", "p1@e.com", "", "active"⟩], 0) ∧
    insertOrIgnorePublisher [⟨"P1", "p1@e.com", "", "active"⟩]
        ⟨some "P1", some "p1@e.com", none, none⟩
      = ([⟨"P1", "p1@e.com", "", "active"⟩], 0) ∧
    bulk_insert_publishers [] [⟨some "P1", some "p1@e.com", none, none⟩,
        ⟨some "P1", some "p1@e.com", none, none⟩]
      = ([⟨"P1", "p1@e.com", "", "active"⟩], 1) := by
  have h := bulk_insert_publishers_correct [] [⟨some "P1", some "p1@e.com", none, none⟩]
  have e : bulk_insert_publishers [] [⟨some "P1", some "p1@e.com", none, none⟩]
      = ([⟨"P1", "p1@e.com", "", "active"⟩], 1) := by
    rw [bulk_eq_flat]
    decide
  refine ⟨?_, ?_, by rw [bulk_eq_flat]; decide⟩
  · have h2 := h.2.2.2.2
    rw [e] at h2
    exact h2
  · exact (bulk_insert_publishers_correct [⟨"P1", "p1@e.com", "", "active"⟩]
      []).2.2.2.1 ⟨some "P1", some "p1@e.com", none, none⟩ "p1@e.com" rfl (by decide)

/-- C4: a successful `POST /api/responses` call appends exactly one
response row, flips the parent inquiry to `responded` with `responded_at`
populated, and the new response's conversation thread holds exactly one
message, an `agent` message whose text equals the submitted response
text. -/
theorem create_response_correct (env : Env) (db : DB) (uid iid : Nat)
    (txt : String) (hwf : db.wf) (hiid : iid ≠ 0) (htxt : txt ≠ "")
    (hex : ∃ i ∈ db.inquiries, i.id = iid) :
    ∃ db', create_response env db uid (some iid) (some txt)
        = some (db', db.nextResponseId) ∧
      db'.responses = db.responses ++
        [⟨db.nextResponseId, iid, uid, txt, env.now, 0, none, "open"⟩] ∧
      (∃ i ∈ db'.inquiries, i.id = iid) ∧
      (∀ i ∈ db'.inquiries, i.id = iid →
        i.status = "responded" ∧ i.responded_at = some env.now) ∧
      thread db' db.nextResponseId
        = [⟨db.nextMessageId, db.nextResponseId, "agent", txt, env.now⟩] := by
  have hcond : (decide (iid = 0) || decide (txt = "")) = false := by
    simp [hiid, htxt]
  refine ⟨{ db with
      inquiries := db.inquiries.map (fun i =>
        if i.id = iid then
          { i with status := "responded", responded_at := some env.now }
        else i)
      responses := db.responses ++
        [⟨db.nextResponseId, iid, uid, txt, env.now, 0, none, "open"⟩]
      messages := db.messages ++
        [⟨db.nextMessageId, db.nextResponseId, "agent", txt, env.now⟩]
      nextResponseId := db.nextResponseId + 1
      nextMessageId := db.nextMessageId + 1 }, ?_, rfl, ?_, ?_, ?_⟩
  · simp only [create_response, hcond, Bool.false_eq_true, if_neg, not_false_iff]
  · rcases hex with ⟨i, hi, hid⟩
    refine ⟨{ i with status := "responded", responded_at := some env.now }, ?_, hid⟩
    have : (fun j => if j.id = iid then
        { j with status := "responded", responded_at := some env.now } else j) i
        = { i with status := "responded", responded_at := some env.now } := by
      simp [hid]
    exact this ▸ List.mem_map_of_mem _ hi
  · intro j hj hjid
    rcases List.mem_map.1 hj with ⟨i, hi, hfi⟩
    by_cases hcase : i.id = iid
    · rw [if_pos hcase] at hfi
      rw [← hfi]
      exact ⟨rfl, rfl⟩
    · rw [if_neg hcase] at hfi
      rw [← hfi] at hjid
      exact absurd hjid hcase
  · unfold thread
    simp only [List.filter_append]
    have hold : db.messages.filter
        (fun m => m.response_id = db.nextResponseId) = [] := by
      rw [List.filter_eq_nil_iff]
      intro m hm
      have := hwf.2.2.2.2.1 m hm
      simp only [decide_eq_true_eq]
      omega
    rw [hold]
    simp

/-- Witness for the response-creation theorem on a one-inquiry database. -/
theorem create_response_correct_witness :
    ∃ db', create_response ⟨7, "01/01/2026"⟩
        ⟨[], [⟨5, 1, "s", "m", "pending", 0, none⟩], [], [], 1, 6, 1, 1⟩
        2 (some 5) (some "hello")
        = some (db', 1) ∧
      db'.responses = [⟨1, 5, 2, "hello", 7, 0, none, "open"⟩] ∧
      (∃ i ∈ db'.inquiries, i.id = 5) ∧
      (∀ i ∈ db'.inquiries, i.id = 5 →
        i.status = "responded" ∧ i.responded_at = some 7) ∧
      thread db' 1 = [⟨1, 1, "agent", "hello", 7⟩] :=
  create_response_correct ⟨7, "01/01/2026"⟩
    ⟨[], [⟨5, 1, "s", "m", "pending", 0, none⟩], [], [], 1, 6, 1, 1⟩
    2 5 "hello" (by decide) (by decide) (by decide) (by decide)

/- Lemmas about the email-sync pipeline. -/

theorem maxBySentAt_eq_none {l : List DBResponse} :
    maxBySentAt l = none ↔ l = [] := by
  cases l with
  | nil => simp [maxBySentAt]
  | cons r rs =>
    simp only [maxBySentAt]
    rcases maxBySentAt rs with _ | m
    · simp
    · by_cases h : r.sent_at < m.sent_at <;> simp [h]

theorem maxBySentAt_mem {l : List DBResponse} {r : DBResponse}
    (h : maxBySentAt l = some r) : r ∈ l := by
  induction l generalizing r with
  | nil => simp [maxBySentAt] at h
  | cons x xs ih =>
    rcases hm : maxBySentAt xs with _ | m
    · simp only [maxBySentAt, hm] at h
      injection h with h
      subst h
      exact List.mem_cons_self _ _
    · by_cases hc : x.sent_at < m.sent_at
      · simp only [maxBySentAt, hm, if_pos hc] at h
        injection h with h
        subst h
        exact List.mem_cons_of_mem _ (ih hm)
      · simp only [maxBySentAt, hm, if_neg hc] at h
        injection h with h
        subst h
        exact List.mem_cons_self _ _

theorem maxBySentAt_max {l : List DBResponse} {r : DBResponse}
    (h : maxBySentAt l = some r) : ∀ x ∈ l, x.sent_at ≤ r.sent_at := by
  induction l generalizing r with
  | nil => simp [maxBySentAt] at h
  | cons y ys ih =>
    intro x hx
    rcases hm : maxBySentAt ys with _ | m
    · simp only [maxBySentAt, hm] at h
      injection h with h
      subst h
      rcases List.mem_cons.1 hx with h | h
      · subst h; exact Nat.le_refl _
      · rw [maxBySentAt_eq_none.1 hm] at h
        simp at h
    · by_cases hc : y.sent_at < m.sent_at
      · simp only [maxBySentAt, hm, if_pos hc] at h
        injection h with h
        subst h
        rcases List.mem_cons.1 hx with h | h
        · subst h; exact Nat.le_of_lt hc
        · exact ih hm x h
      · simp only [maxBySentAt, hm, if_neg hc] at h
        injection h with h
        subst h
        rcases List.mem_cons.1 hx with h | h
        · subst h; exact Nat.le_refl _
        · exact Nat.le_trans (ih hm x h) (Nat.not_lt.1 hc)

/-- The auto-detect step never touches the clients table. -/
theorem autoDetect_clients (env : Env) (db : DB) (cid : Nat) (body : String) :
    (autoDetect env db cid body).clients = db.clients := by
  unfold autoDetect
  split <;> rfl

/-- The inquiry/auto-detect transaction never touches the clients table. -/
theorem insertInquiryStep_clients (env : Env) (db : DB) (cid : Nat)
    (subject body : String) :
    (insertInquiryStep env db cid subject body).1.clients = db.clients := by
  unfold insertInquiryStep
  split
  · rfl
  · exact autoDetect_clients env _ cid body

/-- Auto-detection never touches the inquiries table. -/
theorem autoDetect_inquiries (env : Env) (db : DB) (cid : Nat) (body : String) :
    (autoDetect env db cid body).inquiries = db.inquiries := by
  unfold autoDetect
  split <;> rfl

/-- Client resolution never touches the inquiries table. -/
theorem resolveClient_inquiries (db : DB) (fn : String)
    (phone company : Option String) {db1 : DB} {cid : Nat}
    (h : resolveClient db fn phone company = Except.ok (db1, cid)) :
    db1.inquiries = db.inquiries := by
  unfold resolveClient at h
  split at h
  · unfold insertClient at h
    split at h
    · cases h
    · injection h with h
      have h1 : _ = db1 := congrArg Prod.fst h
      rw [← h1]
  · split at h <;>
      (injection h with h
       have h1 : _ = db1 := congrArg Prod.fst h
       rw [← h1])

/-- No two inquiries of one client share both subject and message. -/
def NoDupInquiries (db : DB) : Prop :=
  ∀ i ∈ db.inquiries, ∀ j ∈ db.inquiries,
    i.client_id = j.client_id → i.subject = j.subject → i.message = j.message →
      i = j

theorem insertInquiryStep_nodup (env : Env) (db : DB) (cid : Nat)
    (subject body : String) (hnd : NoDupInquiries db) :
    NoDupInquiries (insertInquiryStep env db cid subject body).1 := by
  unfold insertInquiryStep
  split
  · exact hnd
  next hf =>
    have hnone := List.find?_eq_none.1 hf
    intro i hi j hj hc hs hm
    rw [autoDetect_inquiries] at hi hj
    simp only at hi hj
    rcases List.mem_append.1 hi with hi2 | hi2 <;>
      rcases List.mem_append.1 hj with hj2 | hj2
    · exact hnd i hi2 j hj2 hc hs hm
    · exfalso
      have hj3 : j = ⟨db.nextInquiryId, cid, subject, body, "pending", env.now, none⟩ := by
        simpa using hj2
      apply hnone i hi2
      subst hj3
      simp only at hc hs hm
      simp [hc, hs, hm]
    · exfalso
      have hi3 : i = ⟨db.nextInquiryId, cid, subject, body, "pending", env.now, none⟩ := by
        simpa using hi2
      apply hnone j hj2
      subst hi3
      simp only at hc hs hm
      simp [← hc, ← hs, ← hm]
    · have hi3 : i = ⟨db.nextInquiryId, cid, subject, body, "pending", env.now, none⟩ := by
        simpa using hi2
      have hj3 : j = ⟨db.nextInquiryId, cid, subject, body, "pending", env.now, none⟩ := by
        simpa using hj2
      rw [hi3, hj3]

theorem processEmail_nodup (env : Env) (db : DB) (e : EmailData) (ex : Extracted)
    {db' : DB} {r : MsgResult} (hnd : NoDupInquiries db)
    (h : processEmail env db e ex = Except.ok (db', r)) :
    NoDupInquiries db' := by
  unfold processEmail at h
  by_cases hg : valid_fields_count e ex < MIN_REQUIRED_FIELDS
  · rw [if_pos hg] at h
    injection h with h
    have h1 : db = db' := congrArg Prod.fst h
    rw [← h1]
    exact hnd
  · rw [if_neg hg] at h
    dsimp only at h
    rcases hrc : resolveClient db (resolvedName e ex) ex.phone ex.company
        with u | ⟨db1, cid⟩ <;> rw [hrc] at h
    · cases h
    · dsimp only at h
      have hnd1 : NoDupInquiries db1 := by
        unfold NoDupInquiries
        rw [resolveClient_inquiries db _ _ _ hrc]
        exact hnd
      have hnd2 := insertInquiryStep_nodup env db1 cid
        (resolvedSubject env e ex (resolvedName e ex)) e.body hnd1
      rcases his : insertInquiryStep env db1 cid
          (resolvedSubject env e ex (resolvedName e ex)) e.body with ⟨db2, created⟩
      rw [his] at h
      rw [his] at hnd2
      cases created with
      | true =>
        simp only at h hnd2
        injection h with h
        have h1 : db2 = db' := congrArg Prod.fst h
        rw [← h1]
        exact hnd2
      | false =>
        simp only at h hnd2
        injection h with h
        have h1 : db2 = db' := congrArg Prod.fst h
        rw [← h1]
        exact hnd2

theorem syncLoop_nodup (env : Env) :
    ∀ (msgs : List (EmailData × Extracted)) (db : DB) (count rejected : Nat),
      NoDupInquiries db →
      NoDupInquiries (syncLoop env db msgs count rejected).1 := by
  intro msgs
  induction msgs with
  | nil => intro db count rejected hnd; exact hnd
  | cons m rest ih =>
    intro db count rejected hnd
    rcases m with ⟨e, ex⟩
    simp only [syncLoop]
    rcases hpe : processEmail env db e ex with u | ⟨db2, r⟩
    · exact hnd
    · have hnd2 := processEmail_nodup env db e ex hnd hpe
      cases r with
      | rejected => exact ih db2 count (rejected + 1) hnd2
      | created => exact ih db2 (count + 1) rejected hnd2
      | duplicate => exact ih db2 count rejected hnd2

theorem sync_emails_nodup (env : Env) (db : DB)
    (msgs : List (EmailData × Extracted)) (hnd : NoDupInquiries db) :
    NoDupInquiries (sync_emails env db msgs).1 := by
  unfold sync_emails
  have hbase := syncLoop_nodup env msgs db 0 0 hnd
  rcases hr : syncLoop env db msgs 0 0 with ⟨db2, res⟩
  rw [hr] at hbase
  rcases res with ⟨c, j, t⟩ | _ <;> simpa using hbase

/-- C1: for each processed email the handler computes the four validity
booleans exactly as claimed — name valid iff the extracted name differs
from the sender-local-part fallback and is longer than 2 characters, email
valid iff the candidate contains `'@'`, phone valid iff a phone string was
extracted, company valid iff a company longer than 1 character was
extracted — and proceeds only when at least 3 of the 4 are true; below the
threshold the message is counted as rejected and the database (hence the
clients and inquiries tables) is left unchanged.  The phone hypothesis
records that the phone regexes only ever produce non-empty matches. -/
theorem sync_field_gate (env : Env) (db : DB) (e : EmailData) (ex : Extracted)
    (hph : ex.phone ≠ some "") :
    (valid_name e ex = true ↔
      resolvedName e ex ≠ localPart e.from_email ∧ (resolvedName e ex).length > 2) ∧
    (valid_email e ex = true ↔ charIn '@' (resolvedEmail e ex) = true) ∧
    (valid_phone ex = true ↔ ex.phone ≠ none) ∧
    (valid_company ex = true ↔ ∃ c, ex.company = some c ∧ c.length > 1) ∧
    (valid_fields_count e ex < 3 →
      processEmail env db e ex = Except.ok (db, MsgResult.rejected) ∧
      sync_emails env db [(e, ex)] = (db, SyncResult.ok 0 1 1)) ∧
    (3 ≤ valid_fields_count e ex →
      ∀ db' r, processEmail env db e ex = Except.ok (db', r) →
        r ≠ MsgResult.rejected) := by
  refine ⟨?_, ?_, ?_, ?_, ?_, ?_⟩
  · unfold valid_name
    simp only [ne_eq, gt_iff_lt, Bool.and_eq_true, decide_eq_true_eq]
    constructor
    · rintro ⟨⟨h1, h2⟩, h3⟩
      exact ⟨h2, h3⟩
    · rintro ⟨h2, h3⟩
      refine ⟨⟨?_, h2⟩, h3⟩
      intro h0
      rw [h0] at h3
      exact absurd h3 (by decide)
  · unfold valid_email
    simp only [ne_eq, Bool.and_eq_true, decide_eq_true_eq]
    constructor
    · rintro ⟨h1, h2⟩
      exact h2
    · intro h
      refine ⟨?_, h⟩
      intro h0
      rw [h0] at h
      exact absurd h (by decide)
  · unfold valid_phone truthyOpt
    cases hpc : ex.phone with
    | none => simp
    | some p =>
      have hp : p ≠ "" := by
        intro h0
        exact hph (by rw [hpc, h0])
      simp [hp]
  · unfold valid_company
    cases hcc : ex.company with
    | none => simp
    | some c =>
      simp only [ne_eq, gt_iff_lt, Bool.and_eq_true, decide_eq_true_eq,
        Option.some.injEq]
      constructor
      · rintro ⟨h1, h2⟩
        exact ⟨c, rfl, h2⟩
      · rintro ⟨c2, hc2, h2⟩
        subst hc2
        refine ⟨?_, h2⟩
        intro h0
        rw [h0] at h2
        exact absurd h2 (by decide)
  · intro hlt
    have hpe : processEmail env db e ex = Except.ok (db, MsgResult.rejected) := by
      unfold processEmail
      have hlt2 : valid_fields_count e ex < MIN_REQUIRED_FIELDS := hlt
      rw [if_pos hlt2]
    refine ⟨hpe, ?_⟩
    simp [sync_emails, syncLoop, hpe]
  · intro hge db' r hpr hr
    subst hr
    unfold processEmail at hpr
    have hge2 : ¬ valid_fields_count e ex < MIN_REQUIRED_FIELDS := Nat.not_lt.mpr hge
    rw [if_neg hge2] at hpr
    dsimp only at hpr
    rcases hrc : resolveClient db (resolvedName e ex) ex.phone ex.company
        with u | ⟨db1, cid⟩ <;> rw [hrc] at hpr
    · cases hpr
    · dsimp only at hpr
      rcases his : insertInquiryStep env db1 cid
          (resolvedSubject env e ex (resolvedName e ex)) e.body with ⟨db2, created⟩
      rw [his] at hpr
      cases created <;> dsimp only at hpr <;>
        · injection hpr with h2
          have h3 := congrArg Prod.snd h2
          simp at h3

/-- Witness for the field gate: a company-only email (2 of 4 fields) is
rejected with no database change; an email carrying a named sender, a
phone and the fallback address (3 of 4) passes the gate and creates one
client and one inquiry. -/
theorem sync_field_gate_witness :
    sync_emails ⟨100, "01/01/2026"⟩ DB.empty
        [(⟨"a@x.com", "s", "b"⟩, ⟨none, some "Acme Solutions", none, none⟩)]
      = (DB.empty, SyncResult.ok 0 1 1) ∧
    processEmail ⟨100, "01/01/2026"⟩ DB.empty ⟨"a@x.com", "Hello", "body one"⟩
        ⟨some "123456", none, some "John Smith", none⟩
      = Except.ok
          (⟨[⟨1, "John Smith", "john.smith.unknown@internal.local",
              some "123456", none⟩],
            [⟨1, 1, "Hello", "body one", "pending", 100, none⟩],
            [], [], 2, 2, 1, 1⟩, MsgResult.created) ∧
    MsgResult.created ≠ MsgResult.rejected := by
  have h1 := sync_field_gate ⟨100, "01/01/2026"⟩ DB.empty ⟨"a@x.com", "s", "b"⟩
    ⟨none, some "Acme Solutions", none, none⟩ (by decide)
  have h2 := sync_field_gate ⟨100, "01/01/2026"⟩ DB.empty
    ⟨"a@x.com", "Hello", "body one"⟩ ⟨some "123456", none, some "John Smith", none⟩
    (by decide)
  have hconc : processEmail ⟨100, "01/01/2026"⟩ DB.empty
      ⟨"a@x.com", "Hello", "body one"⟩
      ⟨some "123456", none, some "John Smith", none⟩
      = Except.ok
          (⟨[⟨1, "John Smith", "john.smith.unknown@internal.local",
              some "123456", none⟩],
            [⟨1, 1, "Hello", "body one", "pending", 100, none⟩],
            [], [], 2, 2, 1, 1⟩, MsgResult.created) := by decide
  exact ⟨(h1.2.2.2.2.1 (by decide)).2, hconc,
    h2.2.2.2.2.2 (by decide) _ _ hconc⟩

/-- C2: a new inquiry is inserted during sync only when no existing inquiry
of the resolved client has exactly the same subject and message; an exact
duplicate is skipped without error and without any insertion, and a sync
run preserves the invariant that no client ever has two inquiries with
identical subject and message. -/
theorem sync_duplicate_suppression (env : Env) (db : DB) (cid : Nat)
    (subject body : String) :
    ((∃ i ∈ db.inquiries,
        i.client_id = cid ∧ i.subject = subject ∧ i.message = body) →
      insertInquiryStep env db cid subject body = (db, false)) ∧
    (∀ msgs, NoDupInquiries db → NoDupInquiries (sync_emails env db msgs).1) := by
  constructor
  · rintro ⟨i, hi, hc, hs, hm⟩
    unfold insertInquiryStep
    split
    · rfl
    next hf =>
      have := List.find?_eq_none.1 hf i hi
      simp [hc, hs, hm] at this
  · intro msgs hnd
    exact sync_emails_nodup env db msgs hnd

/-- Witness for duplicate suppression: on a database already holding the
inquiry, the step is a no-op reporting no creation; syncing the same
message twice creates one inquiry and keeps the no-duplicate invariant. -/
theorem sync_duplicate_suppression_witness :
    insertInquiryStep ⟨100, "01/01/2026"⟩
        ⟨[⟨1, "John Smith", "j@i.local", none, some "Acme Corp"⟩],
          [⟨1, 1, "s", "m", "pending", 0, none⟩], [], [], 2, 2, 1, 1⟩
        1 "s" "m"
      = (⟨[⟨1, "John Smith", "j@i.local", none, some "Acme Corp"⟩],
          [⟨1, 1, "s", "m", "pending", 0, none⟩], [], [], 2, 2, 1, 1⟩, false) ∧
    NoDupInquiries (sync_emails ⟨100, "01/01/2026"⟩ DB.empty
        [(⟨"a@x.com", "Hello", "body"⟩,
          ⟨some "123456", some "Acme Corp", some "John Smith", none⟩),
         (⟨"a@x.com", "Hello", "body"⟩,
          ⟨some "123456", some "Acme Corp", some "John Smith", none⟩)]).1 ∧
    (sync_emails ⟨100, "01/01/2026"⟩ DB.empty
        [(⟨"a@x.com", "Hello", "body"⟩,
          ⟨some "123456", some "Acme Corp", some "John Smith", none⟩),
         (⟨"a@x.com", "Hello", "body"⟩,
          ⟨some "123456", some "Acme Corp", some "John Smith", none⟩)]).2
      = SyncResult.ok 1 0 2 := by
  have h := sync_duplicate_suppression ⟨100, "01/01/2026"⟩
    ⟨[⟨1, "John Smith", "j@i.local", none, some "Acme Corp"⟩],
      [⟨1, 1, "s", "m", "pending", 0, none⟩], [], [], 2, 2, 1, 1⟩
    1 "s" "m"
  refine ⟨h.1 ⟨⟨1, 1, "s", "m", "pending", 0, none⟩, by decide⟩, ?_, by decide⟩
  exact (sync_duplicate_suppression ⟨100, "01/01/2026"⟩ DB.empty 1 "s" "m").2
    [(⟨"a@x.com", "Hello", "body"⟩,
      ⟨some "123456", some "Acme Corp", some "John Smith", none⟩),
     (⟨"a@x.com", "Hello", "body"⟩,
      ⟨some "123456", some "Acme Corp", some "John Smith", none⟩)]
    (by intro i hi; simp [DB.empty] at hi)

/-- C3: after a non-duplicate inquiry is inserted for a client, if the
client has an un-replied response then the most recent one (by `sent_at`)
is marked `client_replied = 1` with follow-up method `email` and exactly
one `client` conversation message carrying the inbound body is appended to
that response's thread; with no un-replied response, responses and
conversation messages are untouched. -/
theorem sync_auto_detect (env : Env) (db : DB) (cid : Nat)
    (subject body : String) (hwf : db.wf)
    (hfind : db.inquiries.find? (fun i =>
      i.client_id = cid && i.subject = subject && i.message = body) = none) :
    (insertInquiryStep env db cid subject body).2 = true ∧
    (latestUnreplied db cid = none ↔ respCandidates db cid = []) ∧
    (latestUnreplied db cid = none →
      (insertInquiryStep env db cid subject body).1.responses = db.responses ∧
      (insertInquiryStep env db cid subject body).1.messages = db.messages) ∧
    (∀ resp, latestUnreplied db cid = some resp →
      resp ∈ respCandidates db cid ∧
      resp.client_replied = 0 ∧
      (∀ r2 ∈ respCandidates db cid, r2.sent_at ≤ resp.sent_at) ∧
      (insertInquiryStep env db cid subject body).1.responses
        = db.responses.map (fun r => if r.id = resp.id then
            { r with client_replied := 1, follow_up_method := some "email" }
          else r) ∧
      (insertInquiryStep env db cid subject body).1.messages
        = db.messages ++ [⟨db.nextMessageId, resp.id, "client", body, env.now⟩] ∧
      thread (insertInquiryStep env db cid subject body).1 resp.id
        = thread db resp.id ++
            [⟨db.nextMessageId, resp.id, "client", body, env.now⟩]) := by
  have hstep : insertInquiryStep env db cid subject body
      = (autoDetect env
          { db with
            inquiries := db.inquiries ++
              [⟨db.nextInquiryId, cid, subject, body, "pending", env.now, none⟩]
            nextInquiryId := db.nextInquiryId + 1 } cid body, true) := by
    unfold insertInquiryStep
    rw [hfind]
  have hcand : respCandidates
      { db with
        inquiries := db.inquiries ++
          [⟨db.nextInquiryId, cid, subject, body, "pending", env.now, none⟩]
        nextInquiryId := db.nextInquiryId + 1 } cid
      = respCandidates db cid := by
    unfold respCandidates
    show db.responses.filter _ = db.responses.filter _
    apply List.filter_congr
    intro r hr
    have hjoin : (db.inquiries ++
        [(⟨db.nextInquiryId, cid, subject, body, "pending", env.now, none⟩ : Inquiry)]).find?
          (fun i => i.id = r.inquiry_id)
        = db.inquiries.find? (fun i => i.id = r.inquiry_id) := by
      rw [List.find?_append]
      rcases hfs : db.inquiries.find? (fun i => i.id = r.inquiry_id) with _ | j
      · exfalso
        rcases hwf.2.2.2.2.2.1 r hr with ⟨i, hi, hid⟩
        have := List.find?_eq_none.1 hfs i hi
        simp [hid] at this
      · rw [hfs]
        simp [Option.or]
    simp only
    rw [hjoin]
  have hlatest : latestUnreplied
      { db with
        inquiries := db.inquiries ++
          [⟨db.nextInquiryId, cid, subject, body, "pending", env.now, none⟩]
        nextInquiryId := db.nextInquiryId + 1 } cid
      = latestUnreplied db cid := by
    unfold latestUnreplied
    rw [hcand]
  refine ⟨by rw [hstep], maxBySentAt_eq_none, ?_, ?_⟩
  · intro hn
    rw [hstep]
    unfold autoDetect
    rw [hlatest, hn]
    exact ⟨rfl, rfl⟩
  · intro resp hsome
    have hsome2 : maxBySentAt (respCandidates db cid) = some resp := hsome
    have hmem : resp ∈ respCandidates db cid := maxBySentAt_mem hsome2
    have hpred := List.of_mem_filter hmem
    simp only [Bool.and_eq_true, decide_eq_true_eq] at hpred
    have hmsg : (insertInquiryStep env db cid subject body).1.messages
        = db.messages ++ [⟨db.nextMessageId, resp.id, "client", body, env.now⟩] := by
      rw [hstep]
      unfold autoDetect
      rw [hlatest, hsome]
    refine ⟨hmem, hpred.1, fun r2 hr2 => maxBySentAt_max hsome2 r2 hr2, ?_, hmsg, ?_⟩
    · rw [hstep]
      unfold autoDetect
      rw [hlatest, hsome]
    · unfold thread
      rw [hmsg, List.filter_append]
      simp

/-- Witness for auto-detection on a database with one un-replied response:
the response is marked replied via email and one `client` message with the
inbound body lands in its thread. -/
theorem sync_auto_detect_witness :
    (insertInquiryStep ⟨100, "01/01/2026"⟩
        ⟨[⟨1, "John Smith", "j@i.local", none, some "Acme Corp"⟩],
          [⟨1, 1, "s1", "m1", "responded", 0, some 2⟩],
          [⟨1, 1, 9, "resp text", 5, 0, none, "open"⟩],
          [⟨1, 1, "agent", "resp text", 5⟩], 2, 2, 2, 2⟩
        1 "s2" "m2").2 = true ∧
    ⟨1, 1, 9, "resp text", 5, 0, none, "open"⟩ ∈ respCandidates
        ⟨[⟨1, "John Smith", "j@i.local", none, some "Acme Corp"⟩],
          [⟨1, 1, "s1", "m1", "responded", 0, some 2⟩],
          [⟨1, 1, 9, "resp text", 5, 0, none, "open"⟩],
          [⟨1, 1, "agent", "resp text", 5⟩], 2, 2, 2, 2⟩ 1 ∧
    (insertInquiryStep ⟨100, "01/01/2026"⟩
        ⟨[⟨1, "John Smith", "j@i.local", none, some "Acme Corp"⟩],
          [⟨1, 1, "s1", "m1", "responded", 0, some 2⟩],
          [⟨1, 1, 9, "resp text", 5, 0, none, "open"⟩],
          [⟨1, 1, "agent", "resp text", 5⟩], 2, 2, 2, 2⟩
        1 "s2" "m2").1.responses
      = [⟨1, 1, 9, "resp text", 5, 1, some "email", "open"⟩] ∧
    thread (insertInquiryStep ⟨100, "01/01/2026"⟩
        ⟨[⟨1, "John Smith", "j@i.local", none, some "Acme Corp"⟩],
          [⟨1, 1, "s1", "m1", "responded", 0, some 2⟩],
          [⟨1, 1, 9, "resp text", 5, 0, none, "open"⟩],
          [⟨1, 1, "agent", "resp text", 5⟩], 2, 2, 2, 2⟩
        1 "s2" "m2").1 1
      = [⟨1, 1, "agent", "resp text", 5⟩, ⟨2, 1, "client", "m2", 100⟩] := by
  have h := sync_auto_detect ⟨100, "01/01/2026"⟩
    ⟨[⟨1, "John Smith", "j@i.local", none, some "Acme Corp"⟩],
      [⟨1, 1, "s1", "m1", "responded", 0, some 2⟩],
      [⟨1, 1, 9, "resp text", 5, 0, none, "open"⟩],
      [⟨1, 1, "agent", "resp text", 5⟩], 2, 2, 2, 2⟩
    1 "s2" "m2" (by decide) (by decide)
  have h4 := h.2.2.2 ⟨1, 1, 9, "resp text", 5, 0, none, "open"⟩ (by decide)
  refine ⟨h.1, h4.1, ?_, ?_⟩
  · rw [h4.2.2.2.1]
    decide
  · rw [h4.2.2.2.2.2]
    decide

/-- C10: the sync client lookup compares the `company` column against `''`
when no company was extracted, but a sync-created company-less client
stores SQL `NULL` there, which `''` never matches.  So after a qualifying
company-less email creates a client, a second qualifying company-less
email with the same extracted name misses that client, re-derives the
identical synthetic email, violates the UNIQUE constraint on
`clients.email`, and the whole sync request returns HTTP 500 with the
second message's transaction rolled back (the final state is the one
committed after the first message). -/
theorem sync_company_null_conflict (env : Env) (db : DB) (e1 e2 : EmailData)
    (ex1 ex2 : Extracted)
    (hc1 : ex1.company = none) (hc2 : ex2.company = none)
    (hname : resolvedName e2 ex2 = resolvedName e1 ex1)
    (hv1 : 3 ≤ valid_fields_count e1 ex1) (hv2 : 3 ≤ valid_fields_count e2 ex2)
    (hnf : findClient db.clients (resolvedName e1 ex1) "" = none)
    (hne : db.clients.any
      (fun c => c.email = syntheticEmail (resolvedName e1 ex1) none) = false) :
    ∃ db1 r1,
      processEmail env db e1 ex1 = Except.ok (db1, r1) ∧
      db1.clients = db.clients ++
        [⟨db.nextClientId, resolvedName e1 ex1,
          syntheticEmail (resolvedName e1 ex1) none, ex1.phone, none⟩] ∧
      findClient db1.clients (resolvedName e2 ex2) "" = none ∧
      processEmail env db1 e2 ex2 = Except.error () ∧
      sync_emails env db [(e1, ex1), (e2, ex2)] = (db1, SyncResult.err500) := by
  have hv1' : ¬ valid_fields_count e1 ex1 < MIN_REQUIRED_FIELDS := Nat.not_lt.mpr hv1
  have hv2' : ¬ valid_fields_count e2 ex2 < MIN_REQUIRED_FIELDS := Nat.not_lt.mpr hv2
  have hpc : companyParamOf none = "" := rfl
  have hrc : resolveClient db (resolvedName e1 ex1) ex1.phone ex1.company
      = Except.ok
        ({ db with
           clients := db.clients ++
             [⟨db.nextClientId, resolvedName e1 ex1,
               syntheticEmail (resolvedName e1 ex1) none, ex1.phone, none⟩]
           nextClientId := db.nextClientId + 1 }, db.nextClientId) := by
    unfold resolveClient
    rw [hc1, hpc, hnf]
    dsimp only
    unfold insertClient
    simp only [hne, Bool.false_eq_true, if_false]
  rcases his : insertInquiryStep env
      ({ db with
         clients := db.clients ++
           [⟨db.nextClientId, resolvedName e1 ex1,
             syntheticEmail (resolvedName e1 ex1) none, ex1.phone, none⟩]
         nextClientId := db.nextClientId + 1 })
      db.nextClientId (resolvedSubject env e1 ex1 (resolvedName e1 ex1)) e1.body
      with ⟨db1, created⟩
  have hpe1 : ∃ r1, processEmail env db e1 ex1 = Except.ok (db1, r1) := by
    unfold processEmail
    rw [if_neg hv1']
    dsimp only
    rw [hrc]
    dsimp only
    rw [his]
    cases created
    · exact ⟨MsgResult.duplicate, rfl⟩
    · exact ⟨MsgResult.created, rfl⟩
  have hcl : db1.clients = db.clients ++
      [⟨db.nextClientId, resolvedName e1 ex1,
        syntheticEmail (resolvedName e1 ex1) none, ex1.phone, none⟩] := by
    have h2 := insertInquiryStep_clients env
      ({ db with
         clients := db.clients ++
           [⟨db.nextClientId, resolvedName e1 ex1,
             syntheticEmail (resolvedName e1 ex1) none, ex1.phone, none⟩]
         nextClientId := db.nextClientId + 1 })
      db.nextClientId (resolvedSubject env e1 ex1 (resolvedName e1 ex1)) e1.body
    rw [his] at h2
    exact h2
  have hnf2 : findClient db1.clients (resolvedName e2 ex2) "" = none := by
    rw [hname, hcl]
    unfold findClient
    rw [List.find?_append]
    have h1 : db.clients.find? (fun c =>
        c.full_name = resolvedName e1 ex1 && sqlEqOpt c.company "") = none := hnf
    rw [h1]
    simp [sqlEqOpt, Option.or]
  have hpe2 : processEmail env db1 e2 ex2 = Except.error () := by
    unfold processEmail
    rw [if_neg hv2']
    dsimp only
    unfold resolveClient
    rw [hc2, hpc, hnf2]
    dsimp only
    unfold insertClient
    have hany : db1.clients.any
        (fun c => c.email = syntheticEmail (resolvedName e2 ex2) none) = true := by
      rw [hname, hcl, List.any_append]
      simp
    simp only [hany, if_true]
  obtain ⟨r1, hpe1'⟩ := hpe1
  refine ⟨db1, r1, hpe1', hcl, hnf2, hpe2, ?_⟩
  unfold sync_emails
  have hloop : syncLoop env db [(e1, ex1), (e2, ex2)] 0 0
      = (db1, SyncResult.err500) := by
    cases r1 <;>
      simp [syncLoop, hpe1', hpe2]
  rw [hloop]

/-- Witness for the NULL-company conflict: two qualifying company-less
emails with the extracted name "John Smith" and different bodies; the
second sync message hits the unique-email violation and the request ends
in a 500, keeping only the first message's rows. -/
theorem sync_company_null_conflict_witness :
    sync_emails ⟨100, "01/01/2026"⟩ DB.empty
        [(⟨"a@x.com", "Hello", "body one"⟩,
          ⟨some "123456", none, some "John Smith", none⟩),
         (⟨"b@y.com", "Hi", "body two"⟩,
          ⟨some "654321", none, some "John Smith", none⟩)]
      = (⟨[⟨1, "John Smith", "john.smith.unknown@internal.local",
            some "123456", none⟩],
          [⟨1, 1, "Hello", "body one", "pending", 100, none⟩],
          [], [], 2, 2, 1, 1⟩, SyncResult.err500) := by
  obtain ⟨db1, r1, hpe1, -, -, -, hsync⟩ :=
    sync_company_null_conflict ⟨100, "01/01/2026"⟩ DB.empty
      ⟨"a@x.com", "Hello", "body one"⟩ ⟨"b@y.com", "Hi", "body two"⟩
      ⟨some "123456", none, some "John Smith", none⟩
      ⟨some "654321", none, some "John Smith", none⟩
      rfl rfl (by decide) (by decide) (by decide) (by decide) (by decide)
  have hconc : processEmail ⟨100, "01/01/2026"⟩ DB.empty
      ⟨"a@x.com", "Hello", "body one"⟩
      ⟨some "123456", none, some "John Smith", none⟩
      = Except.ok
        (⟨[⟨1, "John Smith", "john.smith.unknown@internal.local",
            some "123456", none⟩],
          [⟨1, 1, "Hello", "body one", "pending", 100, none⟩],
          [], [], 2, 2, 1, 1⟩, MsgResult.created) := by decide
  rw [hconc] at hpe1
  injection hpe1 with hpair
  have hdb : (⟨[⟨1, "John Smith", "john.smith.unknown@internal.local",
      some "123456", none⟩],
      [⟨1, 1, "Hello", "body one", "pending", 100, none⟩],
      [], [], 2, 2, 1, 1⟩ : DB) = db1 := congrArg Prod.fst hpair
  rw [← hdb] at hsync
  exact hsync

end QMS
